import Mathlib

/-!
Verification development for the dds package: a decoder for the DirectDraw
Surface container format.  The definitions below are a shallow embedding of
src/image.go (the header dispatch, the uncompressed accessor and the BC3/DXT5
block decompressor).  Byte buffers are lists of naturals normalized mod 256,
Go's fixed-width unsigned arithmetic is naturals with explicit mod 2^8 / 2^32
where the width can matter, and Go runtime panics (out-of-range slice indexing)
are a distinguished outcome, separate from error values returned to the caller.
-/

set_option maxRecDepth 8000

namespace DDS

/-- Go color.RGBA (and color.NRGBA, which has the same four byte channels). -/
structure RGBA where
  R : Nat
  G : Nat
  B : Nat
  A : Nat
deriving DecidableEq

/-- The Go zero value of color.RGBA. -/
def zeroRGBA : RGBA := ⟨0, 0, 0, 0⟩

/-- Error values the decoder returns to its caller.  The source formats them as
strings with fmt.Errorf; the model keeps the structured payloads. -/
inductive DecodeErr where
  | unsupportedCompression (fourCC : Nat)
  | unsupportedPixelFormat (flags : Nat)
  | readImage
  | external (msg : String)
deriving DecidableEq

/-- Outcome of running a piece of the Go decoder: a normal result, an error
value returned to the caller, or a runtime panic (out-of-range slice index or
slice bound).  A panic is not an error return; the two are kept distinct. -/
inductive Outcome (α : Type) where
  | ok (val : α)
  | err (e : DecodeErr)
  | crash
deriving DecidableEq

/-- Modelled from the spec: the pixel-format sub-structure (flags, fourCC,
rgbBitCount and the four 32-bit channel masks).  The header-parsing source file
is not part of src, so the struct is taken from the spec's data model, limited
to the fields the decode paths read.  All fields are 32-bit unsigned values. -/
structure PixelFormat where
  flags : Nat
  fourCC : Nat
  rgbBitCount : Nat
  rBitMask : Nat
  gBitMask : Nat
  bBitMask : Nat
  aBitMask : Nat
deriving DecidableEq

/-- Modelled from the spec: the container header; only width, height and the
embedded pixel format are read by the decode paths in src. -/
structure Header where
  width : Nat
  height : Nat
  pixelFormat : PixelFormat
deriving DecidableEq

/-- Modelled from the spec: fourCC value 0 marks uncompressed data. -/
def compressionTypeNone : Nat := 0

/-- Modelled from the spec: the little-endian 32-bit value of the ASCII tag
"DXT1". -/
def compressionTypeDXT1 : Nat := 0x31545844

/-- Modelled from the spec: the little-endian 32-bit value of the ASCII tag
"DXT5". -/
def compressionTypeDXT5 : Nat := 0x35545844

/-- Modelled from the spec: the alpha-present pixel-format flag bit, at its
classical DDS position (DDPF_ALPHAPIXELS). -/
def pfAlphaPixels : Nat := 0x1

/-- Modelled from the spec: the RGB-present pixel-format flag bit, at its
classical DDS position (DDPF_RGB). -/
def pfRGB : Nat := 0x40

/-- Block edge length of the BC3 tiling (blockSize in src). -/
def blockSize : Nat := 4

/-- Byte k of a Go []byte modelled as a Nat list; entries are bytes, normalized
mod 256. -/
def byteAt (l : List Nat) (k : Nat) : Nat := l.getD k 0 % 256

/-- Modelled from the spec: common.Rgb565toargb8888 — the standard 5/6/5 to
8/8/8 bit-replication expansion of an RGB565 value, with no alpha
contribution. -/
def rgb565toargb8888 (c : Nat) : RGBA :=
  let r5 := (c >>> 11) &&& 0x1F
  let g6 := (c >>> 5) &&& 0x3F
  let b5 := c &&& 0x1F
  ⟨(r5 <<< 3) ||| (r5 >>> 2), (g6 <<< 2) ||| (g6 >>> 4), (b5 <<< 3) ||| (b5 >>> 2), 0⟩

/-- The 3-bit alpha code of texel (i, j), extracted from the two words
alphaCode2 (bytes 2-3, a uint16) and alphaCode1 (bytes 4-7, a uint32) exactly
as in decompressDxt5Block: the low word serves indices up to 12, index 15
straddles both words, and the high word serves indices from 18 on.  The Go
expression (alphaCode1 << 1) & 0x06 is a uint32 shift, hence the mod 2^32. -/
def alphaCodeAt (alphaCode2 alphaCode1 : Nat) (i j : Nat) : Nat :=
  let alphaCodeIndex := 3 * (4 * j + i)
  if alphaCodeIndex ≤ 12 then
    (alphaCode2 >>> alphaCodeIndex) &&& 0x07
  else if alphaCodeIndex = 15 then
    (alphaCode2 >>> 15) ||| (((alphaCode1 <<< 1) % 2 ^ 32) &&& 0x06)
  else
    (alphaCode1 >>> (alphaCodeIndex - 16)) &&& 0x07

/-- The alpha table of decompressDxt5Block.  All arithmetic on the endpoints is
Go uint8 arithmetic: every product and sum wraps mod 256 before the division.
The argument alphaCode is a 3-bit code (at most 7), so the Nat subtractions
8 - alphaCode and 6 - alphaCode agree with Go's uint8 subtraction. -/
def finalAlphaOf (alpha0 alpha1 alphaCode : Nat) : Nat :=
  if alphaCode = 0 then alpha0
  else if alphaCode = 1 then alpha1
  else if alpha0 > alpha1 then
    ((8 - alphaCode) * alpha0 % 256 + (alphaCode - 1) * alpha1 % 256) % 256 / 7
  else if alphaCode = 6 then 0
  else if alphaCode = 7 then 255
  else ((6 - alphaCode) * alpha0 % 256 + (alphaCode - 1) * alpha1 % 256) % 256 / 5

/-- The colour switch of decompressDxt5Block.  Codes 2 and 3 blend the expanded
endpoints channel-wise in Go uint8 arithmetic, wrapping mod 256 before the
division by 3; codes 0 and 1 copy an endpoint.  A code above 3 cannot arise
(the index is masked with 0x03); the Go switch would leave the zero value. -/
def finalColourOf (colour0 colour1 : RGBA) (colorCode : Nat) : RGBA :=
  match colorCode with
  | 0 => colour0
  | 1 => colour1
  | 2 =>
    ⟨(2 * colour0.R % 256 + colour1.R) % 256 / 3,
     (2 * colour0.G % 256 + colour1.G) % 256 / 3,
     (2 * colour0.B % 256 + colour1.B) % 256 / 3, 0⟩
  | 3 =>
    ⟨(colour0.R + 2 * colour1.R % 256) % 256 / 3,
     (colour0.G + 2 * colour1.G % 256) % 256 / 3,
     (colour0.B + 2 * colour1.B % 256) % 256 / 3, 0⟩
  | _ => zeroRGBA

/-- The pixel decompressDxt5Block produces for texel (i, j) of a block: alpha
from the 3-bit code, RGB from the 2-bit colour code, combined by overwriting
the alpha channel.  The vestigial finalAlpha != 255 block of the source (two
writes to a local that is never read) has no observable effect and is not
modelled. -/
def texelPixel (alpha0 alpha1 alphaCode2 alphaCode1 : Nat) (colour0 colour1 : RGBA)
    (code : Nat) (j i : Nat) : RGBA :=
  let alphaCode := alphaCodeAt alphaCode2 alphaCode1 i j
  let finalAlpha := finalAlphaOf alpha0 alpha1 alphaCode
  let colorCode := (code >>> (2 * (4 * j + i))) &&& 0x03
  let c := finalColourOf colour0 colour1 colorCode
  ⟨c.R, c.G, c.B, finalAlpha⟩

/-- One store into the output slice: Go unpacked[idx] = p, which panics when
idx is not below the slice length. -/
def writeTexel (unpacked : List RGBA) (idx : Nat) (p : RGBA) : Outcome (List RGBA) :=
  if idx < unpacked.length then .ok (unpacked.set idx p) else .crash

/-- The texel visit order of the two nested loops in decompressDxt5Block:
j (row inside the block) outer, i (column inside the block) inner. -/
def texelOrder : List (Nat × Nat) :=
  (List.range blockSize).flatMap fun j => (List.range blockSize).map fun i => (j, i)

/-- The per-texel loop body of decompressDxt5Block: the pixel is stored at flat
index (offsetY+j)*width + (offsetX+i) only under the guard offsetX+i < width.
The source has no corresponding check of the row offsetY+j against the image
height. -/
def writeTexels (f : Nat → Nat → RGBA) (offsetX offsetY width : Nat) :
    List (Nat × Nat) → List RGBA → Outcome (List RGBA)
  | [], unpacked => .ok unpacked
  | (j, i) :: rest, unpacked =>
    if offsetX + i < width then
      match writeTexel unpacked ((offsetY + j) * width + (offsetX + i)) (f j i) with
      | .ok u => writeTexels f offsetX offsetY width rest u
      | .err e => .err e
      | .crash => .crash
    else
      writeTexels f offsetX offsetY width rest unpacked

/-- decompressDxt5Block from src: parse one 16-byte BC3 block (two alpha
endpoints, the 48-bit alpha index table split into a uint16 and a uint32, two
RGB565 colour endpoints, the 32-bit colour index table) and store its 4x4
texels into unpacked.  Go slices packed[:1], packed[1:2], packed[2:8],
packed[8:10], packed[10:12] and packed[12:16] before reading, so a buffer of
fewer than 16 bytes panics at the first out-of-range slice bound; after the
slices are in range every binary.Read consumes exactly the bytes its buffer
holds, so the error returns of the source are unreachable. -/
def decompressDxt5Block (packed : List Nat) (offsetX offsetY width : Nat)
    (unpacked : List RGBA) : Outcome (List RGBA) :=
  if packed.length < 16 then .crash
  else
    let alpha0 := byteAt packed 0
    let alpha1 := byteAt packed 1
    let alphaCode1 := byteAt packed 4 ||| byteAt packed 5 <<< 8 |||
      byteAt packed 6 <<< 16 ||| byteAt packed 7 <<< 24
    let alphaCode2 := byteAt packed 2 ||| byteAt packed 3 <<< 8
    let c0 := byteAt packed 8 ||| byteAt packed 9 <<< 8
    let c1 := byteAt packed 10 ||| byteAt packed 11 <<< 8
    let colour0 := rgb565toargb8888 c0
    let colour1 := rgb565toargb8888 c1
    let code := byteAt packed 12 ||| byteAt packed 13 <<< 8 |||
      byteAt packed 14 <<< 16 ||| byteAt packed 15 <<< 24
    writeTexels (texelPixel alpha0 alpha1 alphaCode2 alphaCode1 colour0 colour1 code)
      offsetX offsetY width texelOrder unpacked

/-- The block loops of decompressDxt5: block (i, j) reads from byte offset
j*blockCountX*16 + i*16 and tiles at origin (i*4, j*4).  Go slices
packed[offset+i*16:], which panics when the start exceeds the buffer length;
under List.drop the tail is then short and the block itself reports the panic,
the same outcome. -/
def decompressBlocks (packed : List Nat) (width bcX : Nat) :
    List (Nat × Nat) → List RGBA → Outcome (List RGBA)
  | [], unpacked => .ok unpacked
  | (j, i) :: rest, unpacked =>
    match decompressDxt5Block (packed.drop (j * bcX * 16 + i * 16))
        (i * blockSize) (j * blockSize) width unpacked with
    | .ok u => decompressBlocks packed width bcX rest u
    | .err e => .err e
    | .crash => .crash

/-- decompressDxt5 from src: allocate width*height zero pixels and decompress
ceil(width/4) x ceil(height/4) blocks row-major. -/
def decompressDxt5 (packed : List Nat) (width height : Nat) : Outcome (List RGBA) :=
  let unpacked := List.replicate (width * height) zeroRGBA
  let blockCountX := (width + 3) / blockSize
  let blockCountY := (height + 3) / blockSize
  decompressBlocks packed width blockCountX
    ((List.range blockCountY).flatMap fun j => (List.range blockCountX).map fun i => (j, i))
    unpacked

/-- Modelled from the spec: lowestSetBit with an explicit 32-step bound (the
masks are 32-bit), so that it computes by kernel reduction. -/
def lowestSetBitAux : Nat → Nat → Nat
  | 0, _ => 0
  | fuel + 1, m => if m % 2 = 1 then 0 else 1 + lowestSetBitAux fuel (m / 2)

/-- Modelled from the spec: lowestSetBit — the index of the lowest set bit of a
32-bit channel mask; 32 for the zero mask, as Go's bits.TrailingZeros32
reports (the shift by 32 then clears the channel either way). -/
def lowestSetBit (mask : Nat) : Nat := lowestSetBitAux 32 mask

/-- Little-endian unsigned value of a byte list. -/
def leBytes : List Nat → Nat
  | [] => 0
  | b :: rest => b % 256 + 256 * leBytes rest

/-- Modelled from the spec: readBits — read bitCount bits, rounded up to a
byte count, as an unsigned little-endian integer. -/
def readBits (buf : List Nat) (bitCount : Nat) : Nat :=
  leBytes (buf.take ((bitCount + 7) / 8))

/-- The two pixel-surface shapes Decode can return: a materialized image.RGBA
(the compressed paths), or the lazy img view of src (the uncompressed path),
which keeps the header, the row buffer, the per-channel bit offsets and the
stride and pitch, in the field order of the source struct. -/
inductive DDSImage where
  | rgba (pix : List Nat) (stride : Nat) (width height : Nat)
  | uncompressed (h : Header) (buf : List Nat)
      (rBit gBit bBit aBit : Nat) (stride pitch : Nat)
deriving DecidableEq

/-- Point lookup on a decoded surface.  For image.RGBA this is the standard
Pix read at y*Stride + x*4.  For the uncompressed img it is the At method of
src: read rgbBitCount bits at byte offset pitch*y + stride*x and extract each
channel as (d & mask) >> bit, truncated to 8 bits (the Go uint8 conversion).
Go would panic when the offset passes the buffer end; the in-bounds
coordinates the claims quantify over never reach that case. -/
def atImage : DDSImage → Nat → Nat → RGBA
  | .rgba pix stride _ _, x, y =>
    let i := y * stride + x * 4
    ⟨pix.getD i 0 % 256, pix.getD (i + 1) 0 % 256,
     pix.getD (i + 2) 0 % 256, pix.getD (i + 3) 0 % 256⟩
  | .uncompressed h buf rBit gBit bBit aBit stride pitch, x, y =>
    let arrPsn := pitch * y + stride * x
    let d := readBits (buf.drop arrPsn) h.pixelFormat.rgbBitCount
    ⟨((d &&& h.pixelFormat.rBitMask) >>> rBit) % 256,
     ((d &&& h.pixelFormat.gBitMask) >>> gBit) % 256,
     ((d &&& h.pixelFormat.bBitMask) >>> bBit) % 256,
     ((d &&& h.pixelFormat.aBitMask) >>> aBit) % 256⟩

/-- Width bound of a decoded surface (Bounds().Dx in the source). -/
def imgWidth : DDSImage → Nat
  | .rgba _ _ w _ => w
  | .uncompressed h _ _ _ _ _ _ _ => h.width

/-- Height bound of a decoded surface (Bounds().Dy in the source). -/
def imgHeight : DDSImage → Nat
  | .rgba _ _ _ ht => ht
  | .uncompressed h _ _ _ _ _ _ _ => h.height

/-- decodeUncompressedDDS from src: require both the alpha-present and the
RGB-present flag, compute pitch and stride from the bit count (uint32
arithmetic, hence the mod 2^32), read exactly pitch*height bytes (io.ReadFull
fails on a short reader) and return the lazy surface with the per-channel bit
offsets taken from the lowest set bit of each mask. -/
def decodeUncompressedDDS (h : Header) (r : List Nat) : Outcome DDSImage :=
  if h.pixelFormat.flags &&& (pfAlphaPixels ||| pfRGB) ≠ pfAlphaPixels ||| pfRGB then
    .err (.unsupportedPixelFormat h.pixelFormat.flags)
  else
    let pitch := (h.width * h.pixelFormat.rgbBitCount % 2 ^ 32 + 7) % 2 ^ 32 / 8
    let bufLen := pitch * h.height % 2 ^ 32
    if r.length < bufLen then .err .readImage
    else
      let stride := h.pixelFormat.rgbBitCount / 8
      .ok (.uncompressed h (r.take bufLen)
        (lowestSetBit h.pixelFormat.rBitMask) (lowestSetBit h.pixelFormat.gBitMask)
        (lowestSetBit h.pixelFormat.bBitMask) (lowestSetBit h.pixelFormat.aBitMask)
        stride pitch)

/-- decodeDXT5DDS from src: read the whole remaining stream, run the BC3
decompressor and materialize the pixels as an image.RGBA with stride
4*width.  The in-memory reader never fails, so io.ReadAll's error return is
not reachable in the model. -/
def decodeDXT5DDS (h : Header) (r : List Nat) : Outcome DDSImage :=
  match decompressDxt5 r h.width h.height with
  | .ok rgbaPixels =>
    .ok (.rgba (rgbaPixels.flatMap fun p => [p.R, p.G, p.B, p.A])
      (4 * h.width) h.width h.height)
  | .err e => .err e
  | .crash => .crash

/-- decodeDXT1DDS from src: hand the remaining stream to the external BC1
collaborator (dxt.DecodeDXT1, out of scope, taken as a parameter) and wrap its
RGBA bytes as an image.RGBA with stride 4*width. -/
def decodeDXT1DDS (bc1 : List Nat → Nat → Nat → Except String (List Nat))
    (h : Header) (r : List Nat) : Outcome DDSImage :=
  match bc1 r h.width h.height with
  | .ok rgbaBytes => .ok (.rgba rgbaBytes (4 * h.width) h.width h.height)
  | .error msg => .err (.external msg)

/-- Decode from src, after the header has been read: dispatch on the
pixel-format fourCC to the uncompressed path, the external BC1 collaborator,
or the BC3 block decompressor; any other tag is an unsupported-compression
error carrying the raw value. -/
def Decode (bc1 : List Nat → Nat → Nat → Except String (List Nat))
    (h : Header) (r : List Nat) : Outcome DDSImage :=
  if h.pixelFormat.fourCC = compressionTypeNone then decodeUncompressedDDS h r
  else if h.pixelFormat.fourCC = compressionTypeDXT1 then decodeDXT1DDS bc1 h r
  else if h.pixelFormat.fourCC = compressionTypeDXT5 then decodeDXT5DDS h r
  else .err (.unsupportedCompression h.pixelFormat.fourCC)

/-- The 48-bit alpha index table as the spec describes it: the contiguous
little-endian packing of the low 16-bit word (block bytes 2-3) and the high
32-bit word (block bytes 4-7). -/
def alphaIndexTable48 (low16 high32 : Nat) : Nat := low16 + 2 ^ 16 * high32

/-- Flat output index k is targeted by some texel store of the block loops:
there is a block (bi, bj) within the block counts and a texel (i, j) whose
write guard offsetX+i < width holds and whose flat index
(bj*4+j)*width + (bi*4+i) is k.  This is exactly the store condition of
decompressDxt5Block; the source checks no row bound. -/
def writtenIndex (width height k : Nat) : Prop :=
  ∃ bj bi j i,
    bj < (height + 3) / blockSize ∧ bi < (width + 3) / blockSize ∧
    j < blockSize ∧ i < blockSize ∧
    bi * blockSize + i < width ∧
    k = (bj * blockSize + j) * width + (bi * blockSize + i)

/-! Helper lemmas about the Nat encodings of the Go bit operations. -/

theorem and_seven (x : Nat) : x &&& 7 = x % 8 := by
  have h := Nat.and_pow_two_sub_one_eq_mod x 3
  norm_num at h
  exact h

theorem and_mask_mod (x n m : Nat) (h : (2 ^ n - 1) &&& m = m) :
    x &&& m = x % 2 ^ n &&& m := by
  conv_lhs => rw [← h]
  rw [← Nat.and_assoc, Nat.and_pow_two_sub_one_eq_mod]

theorem and_six (x : Nat) : x &&& 6 = x % 8 &&& 6 := by
  have h := and_mask_mod x 3 6 (by decide)
  norm_num at h
  exact h

theorem lor_small (a u : Nat) (ha : a < 2) (hu : u < 8) (hu2 : u % 2 = 0) :
    a ||| u = a + u := by
  interval_cases a <;> interval_cases u <;> revert hu2 <;> decide

theorem and65_iff (x : Nat) : x &&& 65 = 65 ↔ (x % 2 = 1 ∧ x / 64 % 2 = 1) := by
  have hmask := and_mask_mod x 7 65 (by decide)
  norm_num at hmask
  rw [hmask]
  have h128 : x % 128 < 128 := by omega
  have h0 : x % 2 = x % 128 % 2 := by omega
  have h6 : x / 64 % 2 = x % 128 / 64 % 2 := by omega
  rw [h0, h6]
  exact (by decide :
    ∀ m < 128, (m &&& 65 = 65 ↔ (m % 2 = 1 ∧ m / 64 % 2 = 1))) (x % 128) h128

/-! Length preservation along the texel and block loops: every successful store
is a List.set, which keeps the output buffer at its allocated size. -/

theorem writeTexel_ok_length {u : List RGBA} {idx : Nat} {p : RGBA} {u2 : List RGBA}
    (h : writeTexel u idx p = .ok u2) : u2.length = u.length := by
  unfold writeTexel at h
  split at h
  · cases h
    simp
  · simp at h

theorem writeTexels_ok_length (f : Nat → Nat → RGBA) (offsetX offsetY width : Nat) :
    ∀ (ts : List (Nat × Nat)) (u u2 : List RGBA),
      writeTexels f offsetX offsetY width ts u = .ok u2 → u2.length = u.length := by
  intro ts
  induction ts with
  | nil =>
    intro u u2 h
    simp only [writeTexels] at h
    cases h
    rfl
  | cons hd tl ih =>
    intro u u2 h
    obtain ⟨j, i⟩ := hd
    simp only [writeTexels] at h
    split at h
    · split at h
      · rename_i u3 heq
        have h3 := writeTexel_ok_length heq
        have h4 := ih _ _ h
        omega
      · simp at h
      · simp at h
    · exact ih _ _ h

theorem decompressDxt5Block_ok_length {packed : List Nat} {ox oy w : Nat}
    {u u2 : List RGBA} (h : decompressDxt5Block packed ox oy w u = .ok u2) :
    u2.length = u.length := by
  unfold decompressDxt5Block at h
  split at h
  · simp at h
  · exact writeTexels_ok_length _ _ _ _ _ _ _ h

theorem decompressBlocks_ok_length (packed : List Nat) (width bcX : Nat) :
    ∀ (bs : List (Nat × Nat)) (u u2 : List RGBA),
      decompressBlocks packed width bcX bs u = .ok u2 → u2.length = u.length := by
  intro bs
  induction bs with
  | nil =>
    intro u u2 h
    simp only [decompressBlocks] at h
    cases h
    rfl
  | cons hd tl ih =>
    intro u u2 h
    obtain ⟨j, i⟩ := hd
    simp only [decompressBlocks] at h
    split at h
    · rename_i u3 heq
      have h3 := decompressDxt5Block_ok_length heq
      have h4 := ih _ _ h
      omega
    · simp at h
    · simp at h

/-- Every flat index below width*height is the target of some guarded texel
store: the block grid covers the whole image, and the horizontal guard passes
for every in-bounds column. -/
theorem writtenIndex_of_lt (width height k : Nat) (hk : k < width * height) :
    writtenIndex width height k := by
  have hw : 0 < width := by
    rcases Nat.eq_zero_or_pos width with h0 | hw
    · subst h0
      simp at hk
    · exact hw
  have hx : k % width < width := Nat.mod_lt _ hw
  have hkeq : width * (k / width) + k % width = k := Nat.div_add_mod k width
  have hk' : k < height * width := by
    rw [Nat.mul_comm] at hk
    exact hk
  have hy : k / width < height := (Nat.div_lt_iff_lt_mul hw).mpr hk'
  obtain ⟨y, x, hxw, hyx, hyh⟩ :
      ∃ y x, x < width ∧ width * y + x = k ∧ y < height :=
    ⟨k / width, k % width, hx, hkeq, hy⟩
  unfold writtenIndex blockSize
  refine ⟨y / 4, x / 4, y % 4, x % 4, ?_, ?_, ?_, ?_, ?_, ?_⟩
  · omega
  · omega
  · omega
  · omega
  · omega
  · have h1 : y / 4 * 4 + y % 4 = y := by omega
    have h2 : x / 4 * 4 + x % 4 = x := by omega
    rw [h1, h2, Nat.mul_comm y width]
    exact hyx.symm

/-- C1: the claim states that a texel of block (bx,by) is written at
(bx*4+i, by*4+j) only if that coordinate lies within [0,width) x [0,height),
so that a 5x5 image decodes to exactly 25 pixels with no out-of-bounds write
and no crash.  The code checks only the horizontal bound offsetX+i < width:
decompressing a 5x5 image (two block rows, a full 64-byte buffer) reaches the
store unpacked[(4+1)*5+0] = unpacked[25] on a 25-element buffer and panics.
This theorem evaluates the decoder at that failing input. -/
theorem decompressDxt5_five_by_five_crash :
    decompressDxt5 (List.replicate 64 0) 5 5 = .crash := by decide

/-- C2: the claim states the 7-step alpha (alpha0 > alpha1, code not 0 or 1)
is ((8-code)*alpha0 + (code-1)*alpha1) / 7 over unbounded integers, giving 218
at alpha0=255, alpha1=0, code=2.  The code multiplies and adds in Go uint8
arithmetic, which wraps mod 256 before the division: (6*255) mod 256 = 250
and 250/7 = 35, not 218.  This theorem evaluates the code's alpha table at
that failing input, next to the unbounded-arithmetic value the claim expects. -/
theorem finalAlphaOf_sevenStep_overflow :
    finalAlphaOf 255 0 2 = 35 ∧ ((8 - 2) * 255 + (2 - 1) * 0) / 7 = 218 := by decide

/-- C3: the claim states colour code 2 yields per-channel (2*c0+c1)/3 over
unbounded integers, so c0=(255,0,0), c1=(0,255,0) gives (170,85,0).  The code
blends in Go uint8 arithmetic, wrapping mod 256 before the division:
(2*255) mod 256 = 254 and 254/3 = 84 on the red channel, so the code yields
(84,85,0).  This theorem evaluates the code's colour switch at that failing
input, next to the unbounded-arithmetic value the claim expects. -/
theorem finalColourOf_code2_overflow :
    finalColourOf ⟨255, 0, 0, 0⟩ ⟨0, 255, 0, 0⟩ 2 = ⟨84, 85, 0, 0⟩ ∧
      (2 * 255 + 0) / 3 = 170 := by decide

/-- C4: the 3-bit alpha code the block decoder extracts from the two words of
the alpha index table (the uint16 of bytes 2-3 and the uint32 of bytes 4-7)
equals the 3 bits at position 3*(4*j+i) of the contiguous 48-bit little-endian
packing of those six bytes, across all three extraction branches (the low
word, the straddling index 15, and the high word). -/
theorem alphaCodeAt_eq_packed48_bits (low high i j : Nat)
    (hlow : low < 2 ^ 16) (hhigh : high < 2 ^ 32) (hi : i < 4) (hj : j < 4) :
    alphaCodeAt low high i j =
      (alphaIndexTable48 low high >>> (3 * (4 * j + i))) &&& 7 := by
  unfold alphaCodeAt alphaIndexTable48
  interval_cases i <;> interval_cases j <;> norm_num <;>
    simp only [and_seven, Nat.shiftRight_eq_div_pow, Nat.shiftLeft_eq] <;>
    (try norm_num) <;>
    first
    | omega
    | (rw [and_six]
       have h1 : high * 2 % 4294967296 % 8 = 2 * (high % 4) := by omega
       rw [h1]
       have hm : high % 4 < 4 := by omega
       have h2 : 2 * (high % 4) &&& 6 = 2 * (high % 4) := by
         set m := high % 4
         interval_cases m <;> decide
       rw [h2]
       rw [lor_small (low / 32768) (2 * (high % 4)) (by omega) (by omega) (by omega)]
       omega)

/-- Witness for C4: the straddling index (i=1, j=1, bit position 15) at a
concrete pair of words. -/
theorem alphaCodeAt_eq_packed48_bits_witness :
    33059 < 2 ^ 16 ∧ 3735928559 < 2 ^ 32 ∧ 1 < 4 ∧ 1 < 4 ∧
      alphaCodeAt 33059 3735928559 1 1 =
        (alphaIndexTable48 33059 3735928559 >>> (3 * (4 * 1 + 1))) &&& 7 :=
  ⟨by decide, by decide, by decide, by decide,
    alphaCodeAt_eq_packed48_bits 33059 3735928559 1 1
      (by decide) (by decide) (by decide) (by decide)⟩

/-- C5: the claim states that a BC3 input buffer shorter than
ceil(width/4)*ceil(height/4)*16 bytes makes the decode fail by returning a
DecodeError (no crash).  The code never checks the buffer length: the block
slicing panics first (packed[offset+i*16:] or the fixed sub-slices of a block
shorter than 16 bytes), and the binary.Read error returns that the error
plumbing was written for are unreachable.  This theorem evaluates the decoder
at two short buffers: 31 bytes for 4x8 (32 required) and an empty buffer for
4x4 — both panic instead of returning an error value. -/
theorem decompressDxt5_short_buffer_crash :
    decompressDxt5 (List.replicate 31 0) 4 8 = .crash ∧
      decompressDxt5 [] 4 4 = .crash := by decide

/-- C6: Decode dispatches on the header's fourCC: value 0 routes to the
uncompressed path, the DXT1 tag to the external BC1 collaborator, the DXT5 tag
to the BC3 block decompressor, and any other tag yields the
unsupported-compression error carrying the raw 4-byte value, with no surface
returned. -/
theorem Decode_dispatch (bc1 : List Nat → Nat → Nat → Except String (List Nat))
    (h : Header) (r : List Nat) :
    (h.pixelFormat.fourCC = compressionTypeNone →
        Decode bc1 h r = decodeUncompressedDDS h r) ∧
    (h.pixelFormat.fourCC = compressionTypeDXT1 →
        Decode bc1 h r = decodeDXT1DDS bc1 h r) ∧
    (h.pixelFormat.fourCC = compressionTypeDXT5 →
        Decode bc1 h r = decodeDXT5DDS h r) ∧
    (h.pixelFormat.fourCC ≠ compressionTypeNone →
      h.pixelFormat.fourCC ≠ compressionTypeDXT1 →
      h.pixelFormat.fourCC ≠ compressionTypeDXT5 →
        Decode bc1 h r = .err (.unsupportedCompression h.pixelFormat.fourCC) ∧
          ∀ img, Decode bc1 h r ≠ .ok img) := by
  refine ⟨?_, ?_, ?_, ?_⟩
  · intro h0
    simp [Decode, h0]
  · intro h1
    simp [Decode, h1, compressionTypeNone, compressionTypeDXT1]
  · intro h5
    simp [Decode, h5, compressionTypeNone, compressionTypeDXT1, compressionTypeDXT5]
  · intro hn h1 h5
    constructor
    · simp [Decode, hn, h1, h5]
    · intro img hok
      simp [Decode, hn, h1, h5] at hok

/-- Witness for C6: an unknown tag (7) is rejected with the raw value in the
error. -/
theorem Decode_dispatch_witness :
    ((⟨1, 1, ⟨0, 7, 0, 0, 0, 0, 0⟩⟩ : Header).pixelFormat.fourCC ≠ compressionTypeNone) ∧
    ((⟨1, 1, ⟨0, 7, 0, 0, 0, 0, 0⟩⟩ : Header).pixelFormat.fourCC ≠ compressionTypeDXT1) ∧
    ((⟨1, 1, ⟨0, 7, 0, 0, 0, 0, 0⟩⟩ : Header).pixelFormat.fourCC ≠ compressionTypeDXT5) ∧
      Decode (fun _ _ _ => .ok []) ⟨1, 1, ⟨0, 7, 0, 0, 0, 0, 0⟩⟩ [] =
        .err (.unsupportedCompression 7) :=
  ⟨by decide, by decide, by decide,
    (Decode_dispatch (fun _ _ _ => .ok []) ⟨1, 1, ⟨0, 7, 0, 0, 0, 0, 0⟩⟩ [] |>.2.2.2
      (by decide) (by decide) (by decide)).1⟩

/-- C7: the uncompressed decode path fails with the unsupported-pixel-format
error, and returns no surface, on every header in which the alpha-present flag
(bit 0) or the RGB-present flag (bit 6) is missing; hence it succeeds only
when both flags are set. -/
theorem decodeUncompressedDDS_flag_guard (h : Header) (r : List Nat)
    (hmiss : ¬(h.pixelFormat.flags % 2 = 1 ∧ h.pixelFormat.flags / 64 % 2 = 1)) :
    decodeUncompressedDDS h r = .err (.unsupportedPixelFormat h.pixelFormat.flags) ∧
      ∀ img, decodeUncompressedDDS h r ≠ .ok img := by
  have hcond : h.pixelFormat.flags &&& (pfAlphaPixels ||| pfRGB) ≠
      pfAlphaPixels ||| pfRGB := by
    have h65 : pfAlphaPixels ||| pfRGB = 65 := by decide
    rw [h65]
    intro hc
    exact hmiss ((and65_iff _).mp hc)
  constructor
  · unfold decodeUncompressedDDS
    rw [if_pos hcond]
  · intro img hok
    unfold decodeUncompressedDDS at hok
    rw [if_pos hcond] at hok
    simp at hok

/-- Witness for C7: a header with no flags set is rejected. -/
theorem decodeUncompressedDDS_flag_guard_witness :
    ¬((0 : Nat) % 2 = 1 ∧ (0 : Nat) / 64 % 2 = 1) ∧
      (decodeUncompressedDDS ⟨1, 1, ⟨0, 0, 32, 0, 0, 0, 0⟩⟩ [] =
          .err (.unsupportedPixelFormat 0) ∧
        ∀ img, decodeUncompressedDDS ⟨1, 1, ⟨0, 0, 32, 0, 0, 0, 0⟩⟩ [] ≠ .ok img) :=
  ⟨by decide, decodeUncompressedDDS_flag_guard ⟨1, 1, ⟨0, 0, 32, 0, 0, 0, 0⟩⟩ [] (by decide)⟩

/-- The uncompressed accessor as C8's claim describes it: with
pitch = ceil(width*rgbBitCount/8) and stride = rgbBitCount/8, read rgbBitCount
bits (rounded up to a byte count) at byte offset y*pitch + x*stride of the
pitch*height surface bytes as an unsigned little-endian integer d, and return
each channel as (d & mask) >> bitOffset(mask), where bitOffset is the index of
the lowest set bit of the channel's mask, truncated to 8 bits. -/
def specUncompressedAt (h : Header) (r : List Nat) (x y : Nat) : RGBA :=
  let pitch := (h.width * h.pixelFormat.rgbBitCount + 7) / 8
  let stride := h.pixelFormat.rgbBitCount / 8
  let d := readBits ((r.take (pitch * h.height)).drop (y * pitch + x * stride))
    h.pixelFormat.rgbBitCount
  ⟨((d &&& h.pixelFormat.rBitMask) >>> lowestSetBit h.pixelFormat.rBitMask) % 256,
   ((d &&& h.pixelFormat.gBitMask) >>> lowestSetBit h.pixelFormat.gBitMask) % 256,
   ((d &&& h.pixelFormat.bBitMask) >>> lowestSetBit h.pixelFormat.bBitMask) % 256,
   ((d &&& h.pixelFormat.aBitMask) >>> lowestSetBit h.pixelFormat.aBitMask) % 256⟩

/-- C8: on every surface the uncompressed path returns, the accessor At agrees
at every in-bounds pixel with the claim's formula (specUncompressedAt).  The
two overflow side conditions state that the uint32 pitch and buffer-size
computations of the source do not wrap, which is how the claim's unbounded
ceil arithmetic reads them. -/
theorem uncompressed_at_matches_spec (h : Header) (r : List Nat) (im : DDSImage)
    (x y : Nat) (hdec : decodeUncompressedDDS h r = .ok im)
    (hx : x < h.width) (hy : y < h.height)
    (hov1 : h.width * h.pixelFormat.rgbBitCount + 7 < 2 ^ 32)
    (hov2 : (h.width * h.pixelFormat.rgbBitCount + 7) / 8 * h.height < 2 ^ 32) :
    atImage im x y = specUncompressedAt h r x y := by
  simp only [decodeUncompressedDDS] at hdec
  split at hdec
  · simp at hdec
  · split at hdec
    · simp at hdec
    · injection hdec with hdec
      subst hdec
      have h32 : (2 : Nat) ^ 32 = 4294967296 := by norm_num
      rw [h32] at hov1 hov2 ⊢
      set w := h.width with hw
      set bc := h.pixelFormat.rgbBitCount with hbc
      set ht := h.height with hht
      have hpitch : (w * bc % 4294967296 + 7) % 4294967296 / 8 = (w * bc + 7) / 8 := by
        omega
      rw [hpitch]
      have hbuf : (w * bc + 7) / 8 * ht % 4294967296 = (w * bc + 7) / 8 * ht := by
        omega
      rw [hbuf]
      simp only [atImage, specUncompressedAt]
      rw [Nat.mul_comm ((w * bc + 7) / 8) y, Nat.mul_comm (bc / 8) x]

/-- Witness for C8: a 2x1 16-bit surface with 4-bit channel masks, read at
pixel (1,0). -/
theorem uncompressed_at_matches_spec_witness :
    decodeUncompressedDDS ⟨2, 1, ⟨65, 0, 16, 15, 240, 3840, 61440⟩⟩ [171, 205, 18, 52] =
        .ok (.uncompressed ⟨2, 1, ⟨65, 0, 16, 15, 240, 3840, 61440⟩⟩
          [171, 205, 18, 52] 0 4 8 12 2 4) ∧
      1 < 2 ∧ 0 < 1 ∧ 2 * 16 + 7 < 2 ^ 32 ∧ (2 * 16 + 7) / 8 * 1 < 2 ^ 32 ∧
      atImage (.uncompressed ⟨2, 1, ⟨65, 0, 16, 15, 240, 3840, 61440⟩⟩
          [171, 205, 18, 52] 0 4 8 12 2 4) 1 0 =
        specUncompressedAt ⟨2, 1, ⟨65, 0, 16, 15, 240, 3840, 61440⟩⟩ [171, 205, 18, 52] 1 0 :=
  ⟨by decide, by decide, by decide, by decide, by decide,
    uncompressed_at_matches_spec ⟨2, 1, ⟨65, 0, 16, 15, 240, 3840, 61440⟩⟩
      [171, 205, 18, 52] _ 1 0 (by decide) (by decide) (by decide) (by decide) (by decide)⟩

/-- C9: decoding is deterministic — two decodes of the same byte buffer that
return surfaces return surfaces with the same bounds and the same RGBA8 value
at every coordinate.  The decoder is a pure function of its input buffer, so
the two results are one and the same value. -/
theorem Decode_deterministic (bc1 : List Nat → Nat → Nat → Except String (List Nat))
    (h : Header) (r : List Nat) (s1 s2 : DDSImage)
    (h1 : Decode bc1 h r = .ok s1) (h2 : Decode bc1 h r = .ok s2) :
    imgWidth s1 = imgWidth s2 ∧ imgHeight s1 = imgHeight s2 ∧
      ∀ x y, atImage s1 x y = atImage s2 x y := by
  rw [h1] at h2
  injection h2 with h2
  subst h2
  exact ⟨rfl, rfl, fun _ _ => rfl⟩

/-- Witness for C9: a 4x4 all-zero DXT5 stream decodes (twice) to the same
materialized surface. -/
theorem Decode_deterministic_witness :
    Decode (fun _ _ _ => .ok []) ⟨4, 4, ⟨0, compressionTypeDXT5, 0, 0, 0, 0, 0⟩⟩
        (List.replicate 16 0) = .ok (.rgba (List.replicate 64 0) 16 4 4) ∧
      Decode (fun _ _ _ => .ok []) ⟨4, 4, ⟨0, compressionTypeDXT5, 0, 0, 0, 0, 0⟩⟩
        (List.replicate 16 0) = .ok (.rgba (List.replicate 64 0) 16 4 4) ∧
      (imgWidth (.rgba (List.replicate 64 0) 16 4 4) =
          imgWidth (.rgba (List.replicate 64 0) 16 4 4) ∧
        imgHeight (.rgba (List.replicate 64 0) 16 4 4) =
          imgHeight (.rgba (List.replicate 64 0) 16 4 4) ∧
        ∀ x y, atImage (.rgba (List.replicate 64 0) 16 4 4) x y =
          atImage (.rgba (List.replicate 64 0) 16 4 4) x y) :=
  ⟨by decide, by decide,
    Decode_deterministic (fun _ _ _ => .ok [])
      ⟨4, 4, ⟨0, compressionTypeDXT5, 0, 0, 0, 0, 0⟩⟩ (List.replicate 16 0)
      (.rgba (List.replicate 64 0) 16 4 4) (.rgba (List.replicate 64 0) 16 4 4)
      (by decide) (by decide)⟩

/-- C10: whenever decompressDxt5 succeeds it returns exactly width*height
pixels, and any output position no guarded texel store targets holds the zero
pixel it was allocated with.  (In fact every in-bounds position is targeted by
some store, so the second part holds vacuously; it is stated as the claim
states it.) -/
theorem decompressDxt5_ok_length_and_untouched (packed : List Nat)
    (width height : Nat) (out : List RGBA)
    (h : decompressDxt5 packed width height = .ok out) :
    out.length = width * height ∧
      ∀ k, k < width * height → ¬ writtenIndex width height k →
        out.getD k zeroRGBA = zeroRGBA := by
  simp only [decompressDxt5] at h
  have hlen := decompressBlocks_ok_length _ _ _ _ _ _ h
  rw [List.length_replicate] at hlen
  refine ⟨hlen, ?_⟩
  intro k hk hnw
  exact absurd (writtenIndex_of_lt width height k hk) hnw

/-- Witness for C10: a 4x4 all-zero block decodes to 16 zero pixels. -/
theorem decompressDxt5_ok_length_and_untouched_witness :
    decompressDxt5 (List.replicate 16 0) 4 4 = .ok (List.replicate 16 zeroRGBA) ∧
      ((List.replicate 16 zeroRGBA : List RGBA).length = 4 * 4 ∧
        ∀ k, k < 4 * 4 → ¬ writtenIndex 4 4 k →
          (List.replicate 16 zeroRGBA : List RGBA).getD k zeroRGBA = zeroRGBA) :=
  ⟨by decide,
    decompressDxt5_ok_length_and_untouched (List.replicate 16 0) 4 4
      (List.replicate 16 zeroRGBA) (by decide)⟩

end DDS
